import Mathlib

/-
  Shallow embedding of the tutor-chat front end (jamntia/hackru-f25).

  The embedded code lives in the chat page component: the answer
  post-processing pipeline (normalizeMath, sanitizeInlineCitations), the
  course helpers (labelFromCourse, the selection-repair logic of
  loadCourses, hydrateLabel), the createCourse and ask handlers, and the
  NotesUploader onUpload handler.

  JavaScript strings are modelled as `List Char`.  All scanners are
  written with an explicit fuel argument (fuel = input length at the top
  level), so every definition is structurally recursive and evaluates by
  kernel reduction on concrete inputs.
-/

/-- Convert a Lean string literal to the `List Char` model of a JS string. -/
def str (s : String) : List Char := s.toList

/-- Whitespace stripped by JS `String.prototype.trim` (the ASCII part;
the Unicode space classes are irrelevant to the verified claims). -/
def isJsWhitespace (c : Char) : Bool :=
  c = ' ' || c = '\t' || c = '\n' || c = '\r' || c = '\x0b' || c = '\x0c'

/-- JS `s.trim()`: drop whitespace from both ends. -/
def trim (l : List Char) : List Char :=
  ((l.dropWhile isJsWhitespace).reverse.dropWhile isJsWhitespace).reverse

/-- JS `regex.test(s)` for a literal pattern: does `pat` occur as a
contiguous substring of `l`? -/
def containsSub (pat : List Char) : List Char → Bool
  | [] => pat.isPrefixOf []
  | c :: cs => pat.isPrefixOf (c :: cs) || containsSub pat cs

/-- Fuelled global literal replacement, the semantics of JS
`s.replace(/pat/g, rep)` for a literal pattern `pat`: scan left to
right, replace each occurrence, continue after the match (the
replacement text is not rescanned). -/
def replaceSubF (pat rep : List Char) : Nat → List Char → List Char
  | 0, l => l
  | _ + 1, [] => []
  | n + 1, c :: cs =>
    if pat.isPrefixOf (c :: cs) then
      rep ++ replaceSubF pat rep n ((c :: cs).drop pat.length)
    else
      c :: replaceSubF pat rep n cs

/-- JS `s.replace(/pat/g, rep)` for a literal pattern. -/
def replaceSub (pat rep l : List Char) : List Char :=
  replaceSubF pat rep l.length l

/-- The test `/\\\[|\\\]|\\\(|\\\)/.test(s)` of `normalizeMath`. -/
def hasLegacyDelim (s : List Char) : Bool :=
  containsSub (str "\\[") s || containsSub (str "\\]") s ||
  containsSub (str "\\(") s || containsSub (str "\\)") s

/-- Embedding of `normalizeMath` (chat page).  Source:

```
function normalizeMath(s: string) {
  if (!s) return s;
  if (!(/\\\[|\\\]|\\\(|\\\)/.test(s))) return s;
  return s
    .replace(/\\\[/g, '$$').replace(/\\\]/g, '$$')
    .replace(/\\\(/g, '$').replace(/\\\)/g, '$');
}
```

In a JavaScript replacement string the two-character sequence dollar-dollar
is an escape denoting ONE literal dollar sign, so the replacement text
actually inserted for the first two calls is a single dollar, exactly as
for the last two.  The embedding uses the replacement text the code
actually produces. -/
def normalizeMath (s : List Char) : List Char :=
  if s = [] then s
  else if hasLegacyDelim s then
    replaceSub (str "\\)") (str "$")
      (replaceSub (str "\\(") (str "$")
        (replaceSub (str "\\]") (str "$")
          (replaceSub (str "\\[") (str "$") s)))
  else s

/-- JS `[0-9]` character class. -/
def isDigit09 (c : Char) : Bool := '0' ≤ c && c ≤ '9'

/-- The literal lead-in of the outer regex of `sanitizeInlineCitations`:
a backslash, the letters t e x t, and an opening brace. -/
def textPat : List Char := ['\\', 't', 'e', 'x', 't', '\x7b']

/-- One match attempt of the inner regex `\[([0-9]+)\]\([^)]+\)` at the
head of the input: on success, returns the captured digit group and the
rest of the input after the match.  The greedy quantifiers are
deterministic here because each is followed by a literal excluded from
its character class. -/
def matchLink : List Char → Option (List Char × List Char)
  | [] => none
  | c :: r0 =>
    if c = '[' then
      let ds := r0.takeWhile isDigit09
      if ds = [] then none
      else
        match r0.dropWhile isDigit09 with
        | c1 :: c2 :: r2 =>
          if c1 = ']' ∧ c2 = '(' then
            let us := r2.takeWhile (fun x => x != ')')
            if us = [] then none
            else
              match r2.dropWhile (fun x => x != ')') with
              | c3 :: r4 => if c3 = ')' then some (ds, r4) else none
              | [] => none
          else none
        | _ => none
    else none

/-- Fuelled scan of `block.replace(/\[([0-9]+)\]\([^)]+\)/g, '[$1]')`. -/
def linkReplaceF : Nat → List Char → List Char
  | 0, l => l
  | _ + 1, [] => []
  | n + 1, c :: cs =>
    match matchLink (c :: cs) with
    | some (ds, rest) => '[' :: (ds ++ ']' :: linkReplaceF n rest)
    | none => c :: linkReplaceF n cs

/-- The inner replacement of `sanitizeInlineCitations`: rewrite every
`[digits](url)` occurrence to `[digits]`. -/
def linkReplace (l : List Char) : List Char :=
  linkReplaceF l.length l

/-- Split the input at the first closing brace: `some (before, after)`
when a closing brace exists, `none` otherwise.  This is the `[^}]*\}`
part of the outer regex of `sanitizeInlineCitations`. -/
def splitUntilRBrace : List Char → Option (List Char × List Char)
  | [] => none
  | c :: cs =>
    if c = '\x7d' then some ([], cs)
    else
      match splitUntilRBrace cs with
      | none => none
      | some (a, b) => some (c :: a, b)

/-- Fuelled scan of `s.replace(/\\text\{[^}]*\}/g, block => ...)`: find
each leftmost occurrence of a complete `\text{...}` block (lead-in,
brace-free body, closing brace), apply the link replacement to the whole
matched block, and continue after it. -/
def sanitizeBlocksF : Nat → List Char → List Char
  | 0, l => l
  | _ + 1, [] => []
  | n + 1, c :: cs =>
    if textPat.isPrefixOf (c :: cs) then
      match splitUntilRBrace (cs.drop 5) with
      | some (inner, rest) =>
          linkReplace (textPat ++ inner ++ ['\x7d']) ++ sanitizeBlocksF n rest
      | none => c :: sanitizeBlocksF n cs
    else c :: sanitizeBlocksF n cs

/-- Embedding of `sanitizeInlineCitations` (chat page).  Source:

```
function sanitizeInlineCitations(s: string) {
  return (s || '').replace(/\\text\{[^}]*\}/g, (block) =>
    block.replace(/\[([0-9]+)\]\([^)]+\)/g, '[$1]')
  );
}
```

`(s || '')` is the identity on strings (an empty string maps to the
empty string either way). -/
def sanitizeInlineCitations (s : List Char) : List Char :=
  sanitizeBlocksF s.length s

/-- The constant `USE_MATH_NORMALIZER` of the chat page. -/
def USE_MATH_NORMALIZER : Bool := true

/-- The full answer post-processing pipeline as applied in `ask`:

```
const withMath = USE_MATH_NORMALIZER ? normalizeMath(raw) : raw;
const cleaned = sanitizeInlineCitations(withMath);
```
-/
def sanitize (s : List Char) : List Char :=
  sanitizeInlineCitations (if USE_MATH_NORMALIZER then normalizeMath s else s)

/-- The `Course` record of the chat page (`term?: string | null`; both
`null` and `undefined` are modelled by `none`, which is faithful because
the code only uses `term` through its truthiness and interpolation). -/
structure Course where
  id : List Char
  name : List Char
  term : Option (List Char)
deriving DecidableEq

/-- Embedding of `labelFromCourse` (chat page).  Source:

```
function labelFromCourse(c?: Course) {
  if (!c) return '';
  return c.term ? `${c.name} — ${c.term}` : c.name;
}
```

An empty-string term is falsy in JS, so it yields the bare name, as do
`null` and `undefined`. -/
def labelFromCourse : Option Course → List Char
  | none => []
  | some c =>
    match c.term with
    | some t => if t = [] then c.name else c.name ++ str " — " ++ t
    | none => c.name

/-- The selection-repair logic of `loadCourses` (chat page), on the
success path, as a pure reducer from the previous selection and the
freshly fetched rows to the new selection.  Source:

```
if (!rows.find((c) => c.id === courseId)) {
  if (rows.length > 0) {
    setCourseId(rows[0].id);
  }
}
```
-/
def reconcileSelection (courseId : List Char) (rows : List Course) : List Char :=
  match rows.find? (fun c => c.id == courseId) with
  | some _ => courseId
  | none =>
    match rows with
    | [] => courseId
    | r :: _ => r.id

/-- Outcome of the `GET /courses/{id}` fetch inside `hydrateLabel`:
a 403 response, any other failure (non-ok response, network or parse
error), or a successfully decoded course. -/
inductive FetchCourseOutcome where
  | status403 : FetchCourseOutcome
  | failure : FetchCourseOutcome
  | success : Course → FetchCourseOutcome
deriving DecidableEq

/-- Embedding of `hydrateLabel` (chat page): the label it stores, as a
function of the selected course id, the local course list, and (when a
fetch happens) the fetch outcome.  Source:

```
if (!courseId) { setCourseLabel(''); return; }
const local = courses.find(c => c.id === courseId);
if (local) { setCourseLabel(labelFromCourse(local)); return; }
try {
  const res = await fetch(...);
  if (res.status === 403) { setCourseLabel('(not your course)'); return; }
  if (!res.ok) throw new Error(await res.text());
  const c: Course = await res.json();
  setCourseLabel(labelFromCourse(c));
} catch {
  setCourseLabel('(unknown course)');
}
```
-/
def hydrateLabel (courseId : List Char) (courses : List Course)
    (outcome : FetchCourseOutcome) : List Char :=
  if courseId = [] then []
  else
    match courses.find? (fun c => c.id == courseId) with
    | some localC => labelFromCourse (some localC)
    | none =>
      match outcome with
      | .status403 => str "(not your course)"
      | .failure => str "(unknown course)"
      | .success c => labelFromCourse (some c)

/-- Observable outcome of the `createCourse` handler before/at the
network boundary: the missing-user alert (`alert('Please set your User
ID (UUID) in the sidebar.')`), the silent return on a blank name, or a
POST request with the given body fields. -/
inductive CreateOutcome where
  | alertNoUser : CreateOutcome
  | silent : CreateOutcome
  | request : List Char → List Char → CreateOutcome
deriving DecidableEq

/-- Does a `createCourse` outcome issue a network request? -/
def issuesRequest : CreateOutcome → Bool
  | .request _ _ => true
  | _ => false

/-- Embedding of the guard/body logic of `createCourse` (chat page).
Source:

```
if (!userId) { alert('Please set your User ID (UUID) in the sidebar.'); return; }
if (!newName.trim()) return;
...
body: JSON.stringify({ name: newName.trim(), term: newTerm || '' }),
```
-/
def createCourse (userId newName newTerm : List Char) : CreateOutcome :=
  if userId = [] then .alertNoUser
  else if trim newName = [] then .silent
  else .request (trim newName) (if newTerm = [] then [] else newTerm)

/-- Outcome of the precondition phase of `ask` (chat page): a silent
return (no request, no message), an error message stored via `setErr`
with no request, or proceeding to issue the request. -/
inductive AskPre where
  | silentReturn : AskPre
  | errReturn : List Char → AskPre
  | proceed : AskPre
deriving DecidableEq

/-- Does an `ask` precondition outcome surface a user-facing message? -/
def emitsMessage : AskPre → Bool
  | .errReturn _ => true
  | _ => false

/-- Embedding of the precondition checks of `ask` (chat page).  Source:

```
if (!q.trim()) return;
if (!userId) { setErr('No user id set'); return; }
if (!courseId) { setErr('No course selected. Create or pick a course on the left.'); return; }
```
-/
def askPre (q userId courseId : List Char) : AskPre :=
  if trim q = [] then .silentReturn
  else if userId = [] then .errReturn (str "No user id set")
  else if courseId = []
    then .errReturn (str "No course selected. Create or pick a course on the left.")
  else .proceed

/-- The `Source` record of the chat page (`marker: string` plus optional
title, url, page, score and image flag; the numeric fields are carried
opaquely — the verified logic never computes with them). -/
structure Source where
  marker : List Char
  title : Option (List Char) := none
  url : Option (List Char) := none
  page : Option Int := none
  score : Option Rat := none
  is_image : Option Bool := none
deriving DecidableEq

/-- The chat-page state touched by `ask`, parametrised by the type of
the untyped `meta` record. -/
structure ChatState (μ : Type) where
  answer : List Char
  sources : List Source
  meta : Option μ
  err : Option (List Char)
  loading : Bool
deriving DecidableEq

/-- The state updates `ask` performs after its preconditions pass and
before issuing the request.  Source:

```
setLoading(true);
setErr(null);
setAnswer('');
setSources([]);
setMeta(null);
```
-/
def askStart {μ : Type} (s : ChatState μ) : ChatState μ :=
  { s with loading := true, err := none, answer := [], sources := [], meta := none }

/-- The state in which `ask` issues its network request, when it issues
one: `none` when a precondition fails (no request), `some` of the
cleared state otherwise. -/
def askIssueState {μ : Type} (q userId courseId : List Char)
    (s : ChatState μ) : Option (ChatState μ) :=
  match askPre q userId courseId with
  | .proceed => some (askStart s)
  | _ => none

/-- The fields of a JS `File` object read by `onUpload`. -/
structure UFile where
  name : List Char
  type : List Char
  size : Nat
deriving DecidableEq

/-- The `kind` selector of the notes uploader. -/
inductive UploadKind where
  | pdf : UploadKind
  | image : UploadKind
deriving DecidableEq

/-- Observable outcome of `onUpload` at the network boundary: a
client-side rejection message stored via `setErr` (the handler returns
before any fetch), or a POST to the given endpoint. -/
inductive UploadOutcome where
  | err : List Char → UploadOutcome
  | request : List Char → UploadOutcome
deriving DecidableEq

/-- JS `String.prototype.toLowerCase` (ASCII part, which covers the
claims; `Char.toLower` lowercases exactly the ASCII letters here). -/
def toLowerL (l : List Char) : List Char := l.map Char.toLower

/-- Embedding of the guard logic of `onUpload` (NotesUploader).  Source:

```
if (!userId) return setErr('Set a user id first.');
if (!courseId) return setErr('Pick or create a course first.');
if (!file) return setErr('Choose a file to upload.');
if (kind === 'pdf') {
  const name = file.name.toLowerCase();
  const isPdf = file.type === 'application/pdf' || name.endsWith('.pdf');
  if (!isPdf) return setErr('Please choose a .pdf file.');
  if (file.size > 100 * 1024 * 1024) return setErr('PDF too large (>100MB).');
}
...
const endpoint = kind === 'pdf' ? '/upload/pdf' : '/upload/image';
```
-/
def onUpload (userId courseId : List Char) (file : Option UFile)
    (kind : UploadKind) : UploadOutcome :=
  if userId = [] then .err (str "Set a user id first.")
  else if courseId = [] then .err (str "Pick or create a course first.")
  else
    match file with
    | none => .err (str "Choose a file to upload.")
    | some f =>
      match kind with
      | .pdf =>
        let nm := toLowerL f.name
        let isPdf := (f.type == str "application/pdf") || (str ".pdf").isSuffixOf nm
        if isPdf then
          if f.size > 100 * 1024 * 1024 then .err (str "PDF too large (>100MB).")
          else .request (str "/upload/pdf")
        else .err (str "Please choose a .pdf file.")
      | .image => .request (str "/upload/image")

/-! ### Helper lemmas about the scanners -/

theorem length_dropWhile_le (p : Char → Bool) (l : List Char) :
    (l.dropWhile p).length ≤ l.length := by
  induction l with
  | nil => simp
  | cons a t ih =>
    rw [List.dropWhile_cons]
    split
    · exact Nat.le_succ_of_le ih
    · exact Nat.le_refl _

theorem takeWhile_all_cons (p : Char → Bool) (a : List Char) (x : Char)
    (b : List Char) (ha : ∀ c ∈ a, p c = true) (hx : p x = false) :
    (a ++ x :: b).takeWhile p = a := by
  induction a with
  | nil => simp [List.takeWhile_cons, hx]
  | cons y ys ih =>
    have hy : p y = true := ha y (by simp)
    simp only [List.cons_append, List.takeWhile_cons, hy, if_true]
    rw [ih (fun c hc => ha c (by simp [hc]))]

theorem dropWhile_all_cons (p : Char → Bool) (a : List Char) (x : Char)
    (b : List Char) (ha : ∀ c ∈ a, p c = true) (hx : p x = false) :
    (a ++ x :: b).dropWhile p = x :: b := by
  induction a with
  | nil => simp [List.dropWhile_cons, hx]
  | cons y ys ih =>
    have hy : p y = true := ha y (by simp)
    simp only [List.cons_append, List.dropWhile_cons, hy, if_true]
    exact ih (fun c hc => ha c (by simp [hc]))

theorem splitUntilRBrace_append (a b : List Char) (ha : '\x7d' ∉ a) :
    splitUntilRBrace (a ++ '\x7d' :: b) = some (a, b) := by
  induction a with
  | nil => simp [splitUntilRBrace]
  | cons y ys ih =>
    have hy : y ≠ '\x7d' := fun h => ha (by simp [h])
    have ih2 := ih (fun h => ha (List.mem_cons_of_mem y h))
    simp only [List.cons_append, splitUntilRBrace, if_neg hy, List.append_eq, ih2]

theorem splitUntilRBrace_length {l a b : List Char}
    (h : splitUntilRBrace l = some (a, b)) :
    l.length = a.length + b.length + 1 := by
  induction l generalizing a b with
  | nil => simp [splitUntilRBrace] at h
  | cons c cs ih =>
    simp only [splitUntilRBrace] at h
    split at h
    · cases h
      simp
    · cases hs : splitUntilRBrace cs with
      | none => rw [hs] at h; cases h
      | some p =>
        obtain ⟨a2, b2⟩ := p
        rw [hs] at h
        cases h
        have := ih hs
        simp [this]
        omega

theorem matchLink_none_of_head_ne {c : Char} (cs : List Char) (hc : c ≠ '[') :
    matchLink (c :: cs) = none := by
  simp [matchLink, hc]

theorem matchLink_some_length {l ds rest : List Char}
    (h : matchLink l = some (ds, rest)) : rest.length < l.length := by
  cases l with
  | nil => simp [matchLink] at h
  | cons c r0 =>
    have h2 : (r0.dropWhile isDigit09).length ≤ r0.length := length_dropWhile_le _ _
    simp only [matchLink] at h
    by_cases hc : c = '['
    · rw [if_pos hc] at h
      by_cases hds : r0.takeWhile isDigit09 = []
      · simp [hds] at h
      · rw [if_neg hds] at h
        cases hdw : r0.dropWhile isDigit09 with
        | nil => rw [hdw] at h; cases h
        | cons c1 t1 =>
          cases t1 with
          | nil => rw [hdw] at h; cases h
          | cons c2 r2 =>
            rw [hdw] at h
            simp only [] at h
            by_cases h12 : c1 = ']' ∧ c2 = '('
            · rw [if_pos h12] at h
              by_cases hus : r2.takeWhile (fun x => x != ')') = []
              · simp [hus] at h
              · rw [if_neg hus] at h
                have h4 : (r2.dropWhile (fun x => x != ')')).length ≤ r2.length :=
                  length_dropWhile_le _ _
                cases hdw2 : r2.dropWhile (fun x => x != ')') with
                | nil => rw [hdw2] at h; cases h
                | cons c3 r4 =>
                  rw [hdw2] at h
                  simp only [] at h
                  by_cases h3 : c3 = ')'
                  · rw [if_pos h3] at h
                    cases h
                    rw [hdw] at h2
                    rw [hdw2] at h4
                    simp at h2 h4 ⊢
                    omega
                  · rw [if_neg h3] at h; cases h
            · rw [if_neg h12] at h; cases h
    · rw [if_neg hc] at h; cases h

theorem matchLink_full (ds us b : List Char) (hds : ds ≠ [])
    (hdig : ∀ c ∈ ds, isDigit09 c = true) (hus : us ≠ []) (hrp : ')' ∉ us) :
    matchLink ('[' :: (ds ++ ']' :: '(' :: (us ++ ')' :: b))) = some (ds, b) := by
  have hus2 : ∀ c ∈ us, (c != ')') = true := by
    intro c hc
    simp only [bne_iff_ne, ne_eq]
    intro hcc
    exact hrp (hcc ▸ hc)
  have h1 : (ds ++ ']' :: '(' :: (us ++ ')' :: b)).takeWhile isDigit09 = ds :=
    takeWhile_all_cons _ _ _ _ hdig (by decide)
  have h2 : (ds ++ ']' :: '(' :: (us ++ ')' :: b)).dropWhile isDigit09 =
      ']' :: '(' :: (us ++ ')' :: b) :=
    dropWhile_all_cons _ _ _ _ hdig (by decide)
  have h3 : (us ++ ')' :: b).takeWhile (fun x => x != ')') = us :=
    takeWhile_all_cons _ _ _ _ hus2 (by decide)
  have h4 : (us ++ ')' :: b).dropWhile (fun x => x != ')') = ')' :: b :=
    dropWhile_all_cons _ _ _ _ hus2 (by decide)
  simp only [matchLink, if_pos rfl, h1, h2, h3, h4, if_neg hds, if_neg hus]
  simp

theorem linkReplaceF_fuel : ∀ n m (l : List Char), l.length ≤ n → l.length ≤ m →
    linkReplaceF n l = linkReplaceF m l := by
  intro n
  induction n with
  | zero =>
    intro m l hn _
    have hl : l = [] := List.length_eq_zero.mp (Nat.le_zero.mp hn)
    subst hl
    cases m <;> simp [linkReplaceF]
  | succ n ih =>
    intro m l hn hm
    cases l with
    | nil => cases m <;> simp [linkReplaceF]
    | cons c cs =>
      cases m with
      | zero => simp at hm
      | succ m =>
        simp only [linkReplaceF]
        cases hml : matchLink (c :: cs) with
        | some p =>
          obtain ⟨ds, rest⟩ := p
          have hl := matchLink_some_length hml
          simp only []
          rw [ih m rest (by simp at hn hl ⊢; omega) (by simp at hm hl ⊢; omega)]
        | none =>
          simp only []
          rw [ih m cs (by simp at hn ⊢; omega) (by simp at hm ⊢; omega)]

theorem linkReplace_decompF : ∀ (a : List Char) (n : Nat) (ds us b : List Char),
    '[' ∉ a → ds ≠ [] → (∀ c ∈ ds, isDigit09 c = true) → us ≠ [] → ')' ∉ us →
    (a ++ '[' :: (ds ++ ']' :: '(' :: (us ++ ')' :: b))).length ≤ n →
    linkReplaceF n (a ++ '[' :: (ds ++ ']' :: '(' :: (us ++ ')' :: b))) =
      a ++ '[' :: (ds ++ ']' :: linkReplace b) := by
  intro a
  induction a with
  | nil =>
    intro n ds us b _ hds hdig hus hrp hn
    cases n with
    | zero => simp at hn
    | succ n =>
      simp only [List.nil_append, linkReplaceF]
      rw [matchLink_full ds us b hds hdig hus hrp]
      simp only []
      rw [linkReplaceF_fuel n b.length b (by simp at hn; omega) (Nat.le_refl _)]
      rfl
  | cons x xs ih =>
    intro n ds us b hx hds hdig hus hrp hn
    have hxne : x ≠ '[' := fun h => hx (by simp [h])
    cases n with
    | zero => simp at hn
    | succ n =>
      simp only [List.cons_append, linkReplaceF]
      rw [matchLink_none_of_head_ne _ hxne]
      simp only [List.append_eq]
      rw [ih n ds us b (fun h => hx (List.mem_cons_of_mem _ h)) hds hdig hus hrp
        (by simp at hn ⊢; omega)]

theorem sanitizeBlocksF_fuel : ∀ n m (l : List Char), l.length ≤ n → l.length ≤ m →
    sanitizeBlocksF n l = sanitizeBlocksF m l := by
  intro n
  induction n with
  | zero =>
    intro m l hn _
    have hl : l = [] := List.length_eq_zero.mp (Nat.le_zero.mp hn)
    subst hl
    cases m <;> simp [sanitizeBlocksF]
  | succ n ih =>
    intro m l hn hm
    cases l with
    | nil => cases m <;> simp [sanitizeBlocksF]
    | cons c cs =>
      cases m with
      | zero => simp at hm
      | succ m =>
        simp only [sanitizeBlocksF]
        cases hp : textPat.isPrefixOf (c :: cs) with
        | false =>
          simp only [hp, Bool.false_eq_true, if_false]
          rw [ih m cs (by simp at hn ⊢; omega) (by simp at hm ⊢; omega)]
        | true =>
          simp only [hp, if_true]
          cases hs : splitUntilRBrace (cs.drop 5) with
          | none =>
            simp only []
            rw [ih m cs (by simp at hn ⊢; omega) (by simp at hm ⊢; omega)]
          | some p =>
            obtain ⟨inner, rest⟩ := p
            have hlen := splitUntilRBrace_length hs
            have hdl : (cs.drop 5).length = cs.length - 5 := List.length_drop 5 cs
            simp only []
            rw [ih m rest (by simp at hn ⊢; omega) (by simp at hm ⊢; omega)]

theorem sanitizeBlocksF_id_of_no_text : ∀ (n : Nat) (l : List Char), l.length ≤ n →
    containsSub textPat l = false → sanitizeBlocksF n l = l := by
  intro n
  induction n with
  | zero =>
    intro l hn _
    have hl : l = [] := List.length_eq_zero.mp (Nat.le_zero.mp hn)
    subst hl
    rfl
  | succ n ih =>
    intro l hn hc
    cases l with
    | nil => rfl
    | cons c cs =>
      simp only [containsSub, Bool.or_eq_false_iff] at hc
      obtain ⟨hp, hrest⟩ := hc
      simp only [sanitizeBlocksF, hp, Bool.false_eq_true, if_false]
      rw [ih cs (by simp at hn ⊢; omega) hrest]

theorem sanitizeBlocks_decompF : ∀ (pre : List Char) (n : Nat) (inner post : List Char),
    '\\' ∉ pre → '\x7d' ∉ inner →
    (pre ++ textPat ++ inner ++ '\x7d' :: post).length ≤ n →
    sanitizeBlocksF n (pre ++ textPat ++ inner ++ '\x7d' :: post) =
      pre ++ linkReplace (textPat ++ inner ++ ['\x7d']) ++ sanitizeInlineCitations post := by
  intro pre
  induction pre with
  | nil =>
    intro n inner post _ hinner hn
    cases n with
    | zero => simp [textPat] at hn
    | succ n =>
      have hshape : ([] : List Char) ++ textPat ++ inner ++ '\x7d' :: post =
          '\\' :: 't' :: 'e' :: 'x' :: 't' :: '\x7b' :: (inner ++ '\x7d' :: post) := by
        simp [textPat]
      have hpre : textPat.isPrefixOf
          ('\\' :: 't' :: 'e' :: 'x' :: 't' :: '\x7b' :: (inner ++ '\x7d' :: post)) = true := by
        simp [textPat, List.isPrefixOf]
      rw [hshape] at hn ⊢
      simp only [sanitizeBlocksF, hpre, if_true]
      rw [show List.drop 5 ('t' :: 'e' :: 'x' :: 't' :: '\x7b' :: (inner ++ '\x7d' :: post)) =
        inner ++ '\x7d' :: post from rfl]
      rw [splitUntilRBrace_append inner post hinner]
      simp only []
      rw [sanitizeBlocksF_fuel n post.length post (by simp at hn ⊢; omega) (Nat.le_refl _)]
      simp [sanitizeInlineCitations]
  | cons x xs ih =>
    intro n inner post hx hinner hn
    have hxne : x ≠ '\\' := fun h => hx (by simp [h])
    cases n with
    | zero => simp [textPat] at hn
    | succ n =>
      have hp : textPat.isPrefixOf (x :: (xs ++ textPat ++ inner ++ '\x7d' :: post))
          = false := by
        rw [show textPat = '\\' :: ['t', 'e', 'x', 't', '\x7b'] from rfl]
        simp only [List.isPrefixOf, Bool.and_eq_false_iff]
        left
        exact beq_eq_false_iff_ne.mpr (fun h => hxne h.symm)
      simp only [List.cons_append]
      simp only [sanitizeBlocksF, List.append_eq, hp, Bool.false_eq_true, if_false]
      rw [ih n inner post (fun h => hx (List.mem_cons_of_mem _ h)) hinner
        (by simp at hn ⊢; omega)]

theorem normalizeMath_of_no_delim {s : List Char} (h : hasLegacyDelim s = false) :
    normalizeMath s = s := by
  simp [normalizeMath, h]

/-! ### Claim theorems -/

/-- Claim C1 (code bug): the claim says `normalizeMath` turns the legacy
display delimiters backslash-bracket into a double-dollar marker.  The
source writes the replacement string as two dollar signs, but in a
JavaScript replacement string that sequence is an escape for ONE literal
dollar sign, so `\[x\]` becomes `$x$`, not `$$x$$`: the inline
delimiters are handled as the claim says, the display delimiters are
not. -/
theorem C1_normalizeMath_display_single_dollar :
    normalizeMath (str "\\[x\\]") = str "$x$" ∧
    normalizeMath (str "\\[x\\]") ≠ str "$$x$$" ∧
    normalizeMath (str "\\(y\\)") = str "$y$" := by
  refine ⟨by decide, by decide, by decide⟩

/-- Claim C2 (counterexample): a string with no legacy math delimiter on
which `sanitize` is NOT the identity — the citation-cleanup step runs
unconditionally and rewrites the link inside the `\text{...}` span. -/
theorem C2_sanitize_not_id_counterexample :
    hasLegacyDelim (str "\\text\x7b[3](http://x)\x7d") = false ∧
    sanitize (str "\\text\x7b[3](http://x)\x7d") = str "\\text\x7b[3]\x7d" ∧
    sanitize (str "\\text\x7b[3](http://x)\x7d") ≠ str "\\text\x7b[3](http://x)\x7d" := by
  refine ⟨by decide, by decide, by decide⟩

/-- Claim C2 (amended): on a string with no legacy math delimiters the
math-normalization step is the identity, so the pipeline degenerates to
the citation-cleanup step alone; the full pipeline is the identity
exactly when that step also leaves the string unchanged. -/
theorem C2_no_delim_sanitize (s : List Char) (h : hasLegacyDelim s = false) :
    normalizeMath s = s ∧ sanitize s = sanitizeInlineCitations s ∧
    (sanitizeInlineCitations s = s → sanitize s = s) := by
  have hid : normalizeMath s = s := normalizeMath_of_no_delim h
  refine ⟨hid, ?_, ?_⟩
  · simp [sanitize, USE_MATH_NORMALIZER, hid]
  · intro h2
    simp [sanitize, USE_MATH_NORMALIZER, hid, h2]

/-- Witness for the amended C2 at a concrete delimiter-free input. -/
theorem C2_no_delim_sanitize_witness :
    normalizeMath (str "hello $x$") = str "hello $x$" ∧
    sanitize (str "hello $x$") = sanitizeInlineCitations (str "hello $x$") ∧
    (sanitizeInlineCitations (str "hello $x$") = str "hello $x$" →
      sanitize (str "hello $x$") = str "hello $x$") :=
  C2_no_delim_sanitize (str "hello $x$") (by decide)

/-- Claim C3 (confirmed): `sanitizeInlineCitations` rewrites, inside
every complete `\text{...}` block (body free of closing braces), each
Markdown link `[integer](url)` to `[integer]`, and leaves text outside
such blocks unchanged.  Conjuncts: (1) the claim's own example; (2) a
string containing no `\text{` lead-in is returned unchanged; (3) the
scanner decomposes around a block — the part before the block (free of
backslashes, hence free of block lead-ins) passes through verbatim, the
block gets the link replacement, and scanning continues after it; (4)
the link replacement rewrites every `[digits](url)` occurrence (prefix
free of opening brackets, non-empty all-digit label, non-empty url free
of closing parentheses) to `[digits]` and continues after it. -/
theorem C3_sanitizeInlineCitations_spec :
    (sanitizeInlineCitations
        (str "\\text\x7bSee [3](http://x) and [4](http://y)\x7d") =
      str "\\text\x7bSee [3] and [4]\x7d") ∧
    (∀ s : List Char, containsSub textPat s = false →
      sanitizeInlineCitations s = s) ∧
    (∀ pre inner post : List Char, '\\' ∉ pre → '\x7d' ∉ inner →
      sanitizeInlineCitations (pre ++ textPat ++ inner ++ '\x7d' :: post) =
        pre ++ linkReplace (textPat ++ inner ++ ['\x7d']) ++
          sanitizeInlineCitations post) ∧
    (∀ a ds us b : List Char, '[' ∉ a → ds ≠ [] →
      (∀ c ∈ ds, isDigit09 c = true) → us ≠ [] → ')' ∉ us →
      linkReplace (a ++ '[' :: (ds ++ ']' :: '(' :: (us ++ ')' :: b))) =
        a ++ '[' :: (ds ++ ']' :: linkReplace b)) := by
  refine ⟨by decide, ?_, ?_, ?_⟩
  · intro s h
    exact sanitizeBlocksF_id_of_no_text s.length s (Nat.le_refl _) h
  · intro pre inner post hpre hinner
    exact sanitizeBlocks_decompF pre _ inner post hpre hinner (Nat.le_refl _)
  · intro a ds us b ha hds hdig hus hrp
    exact linkReplace_decompF a _ ds us b ha hds hdig hus hrp (Nat.le_refl _)

/-- Witness for C3 applying each universally quantified conjunct at a
concrete input. -/
theorem C3_sanitizeInlineCitations_spec_witness :
    (sanitizeInlineCitations (str "no spans [3](http://x)") =
      str "no spans [3](http://x)") ∧
    (sanitizeInlineCitations (str "ab " ++ textPat ++ str "q" ++ '\x7d' :: str " t") =
      str "ab " ++ linkReplace (textPat ++ str "q" ++ ['\x7d']) ++
        sanitizeInlineCitations (str " t")) ∧
    (linkReplace (str "a " ++ '[' :: (str "42" ++ ']' :: '(' :: (str "u" ++ ')' :: str " z"))) =
      str "a " ++ '[' :: (str "42" ++ ']' :: linkReplace (str " z"))) :=
  ⟨C3_sanitizeInlineCitations_spec.2.1 (str "no spans [3](http://x)") (by decide),
   C3_sanitizeInlineCitations_spec.2.2.1 (str "ab ") (str "q") (str " t")
     (by decide) (by decide),
   C3_sanitizeInlineCitations_spec.2.2.2 (str "a ") (str "42") (str "u") (str " z")
     (by decide) (by decide) (by decide) (by decide) (by decide)⟩

/-- Claim C4 (counterexample): an empty question makes `ask` return
silently — no request is issued, but contrary to the claim no
user-facing message is produced for this case. -/
theorem C4_empty_question_silent_counterexample :
    askPre (str "") (str "uid") (str "cid") = AskPre.silentReturn ∧
    emitsMessage (askPre (str "") (str "uid") (str "cid")) = false := by
  refine ⟨by decide, by decide⟩

/-- Claim C4 (amended): when the question is empty after trimming, or
the identity is empty, or the courseId is empty, `ask` issues no
request; the empty-question case returns silently with no message,
while the empty-identity and empty-courseId cases produce their own
distinct user-facing messages. -/
theorem C4_ask_preconditions (q u c : List Char)
    (h : trim q = [] ∨ u = [] ∨ c = []) :
    askPre q u c ≠ AskPre.proceed ∧
    (trim q = [] → askPre q u c = AskPre.silentReturn) ∧
    (trim q ≠ [] → u = [] →
      askPre q u c = AskPre.errReturn (str "No user id set")) ∧
    (trim q ≠ [] → u ≠ [] → c = [] →
      askPre q u c = AskPre.errReturn
        (str "No course selected. Create or pick a course on the left.")) ∧
    str "No user id set" ≠
      str "No course selected. Create or pick a course on the left." := by
  have e1 : trim q = [] → askPre q u c = AskPre.silentReturn := by
    intro hq
    simp [askPre, hq]
  have e2 : trim q ≠ [] → u = [] →
      askPre q u c = AskPre.errReturn (str "No user id set") := by
    intro hq hu
    simp [askPre, hq, hu]
  have e3 : trim q ≠ [] → u ≠ [] → c = [] →
      askPre q u c = AskPre.errReturn
        (str "No course selected. Create or pick a course on the left.") := by
    intro hq hu hc
    simp [askPre, hq, hu, hc]
  refine ⟨?_, e1, e2, e3, by decide⟩
  intro hp
  by_cases hq : trim q = []
  · rw [e1 hq] at hp
    cases hp
  · by_cases hu : u = []
    · rw [e2 hq hu] at hp
      cases hp
    · have hc : c = [] := by
        rcases h with h1 | h2 | h3
        · exact absurd h1 hq
        · exact absurd h2 hu
        · exact h3
      rw [e3 hq hu hc] at hp
      cases hp

/-- Witness for the amended C4 at an empty question. -/
theorem C4_ask_preconditions_witness :
    askPre (str "  ") (str "uid") (str "cid") = AskPre.silentReturn ∧
    askPre (str "  ") (str "uid") (str "cid") ≠ AskPre.proceed := by
  have h := C4_ask_preconditions (str "  ") (str "uid") (str "cid") (Or.inl (by decide))
  exact ⟨h.2.1 (by decide), h.1⟩

/-- Claim C5 (confirmed): on a successful `loadCourses` fetch, if the
selected id occurs in the fetched rows the selection is unchanged;
otherwise it becomes the id of the first row when the list is
non-empty, and is unchanged when the list is empty. -/
theorem C5_selection_repair (sel : List Char) (rows : List Course) :
    ((∃ c ∈ rows, c.id = sel) → reconcileSelection sel rows = sel) ∧
    ((∀ c ∈ rows, c.id ≠ sel) → rows = [] → reconcileSelection sel rows = sel) ∧
    ((∀ c ∈ rows, c.id ≠ sel) → ∀ r t, rows = r :: t →
      reconcileSelection sel rows = r.id) := by
  refine ⟨?_, ?_, ?_⟩
  · intro h
    obtain ⟨c0, hc0, hid⟩ := h
    have hs : (rows.find? (fun c => c.id == sel)).isSome := by
      rw [List.find?_isSome]
      exact ⟨c0, hc0, by simp [hid]⟩
    unfold reconcileSelection
    cases hf : rows.find? (fun c => c.id == sel) with
    | none => rw [hf] at hs; simp at hs
    | some c1 => simp
  · intro h hrows
    subst hrows
    rfl
  · intro h r t hrows
    subst hrows
    have hf : (r :: t).find? (fun c => c.id == sel) = none := by
      rw [List.find?_eq_none]
      intro x hx
      simp only [beq_iff_eq]
      exact h x hx
    unfold reconcileSelection
    rw [hf]

/-- Witness for C5: a fetched list not containing the selection repairs
to its first element; an empty list and a list containing the selection
leave it unchanged. -/
theorem C5_selection_repair_witness :
    reconcileSelection (str "a") [⟨str "b", str "B", none⟩] = str "b" ∧
    reconcileSelection (str "a") [] = str "a" ∧
    reconcileSelection (str "b") [⟨str "b", str "B", none⟩] = str "b" :=
  ⟨(C5_selection_repair (str "a") [⟨str "b", str "B", none⟩]).2.2 (by decide) _ _ rfl,
   (C5_selection_repair (str "a") []).2.1 (by decide) rfl,
   (C5_selection_repair (str "b") [⟨str "b", str "B", none⟩]).1 (by decide)⟩

/-- Claim C6 (confirmed): `hydrateLabel` yields the empty label for an
empty selection; a selection found in the local list yields
`labelFromCourse` of that course regardless of any fetch outcome (the
outcome is universally quantified, so no fetch is consulted); otherwise
a 403 yields "(not your course)", any other failure yields "(unknown
course)", and a success yields the formatted label; and the format is
"name — term" exactly when the term is a non-empty string, else the
bare name. -/
theorem C6_hydrateLabel_spec (cid : List Char) (courses : List Course)
    (outcome : FetchCourseOutcome) :
    (cid = [] → hydrateLabel cid courses outcome = []) ∧
    (∀ localC, cid ≠ [] → courses.find? (fun c => c.id == cid) = some localC →
      hydrateLabel cid courses outcome = labelFromCourse (some localC)) ∧
    (cid ≠ [] → courses.find? (fun c => c.id == cid) = none →
      hydrateLabel cid courses FetchCourseOutcome.status403 = str "(not your course)" ∧
      hydrateLabel cid courses FetchCourseOutcome.failure = str "(unknown course)" ∧
      (∀ c, hydrateLabel cid courses (FetchCourseOutcome.success c) =
        labelFromCourse (some c))) ∧
    (∀ c : Course, ∀ t, c.term = some t → t ≠ [] →
      labelFromCourse (some c) = c.name ++ str " — " ++ t) ∧
    (∀ c : Course, c.term = none ∨ c.term = some [] →
      labelFromCourse (some c) = c.name) := by
  refine ⟨?_, ?_, ?_, ?_, ?_⟩
  · intro h
    simp [hydrateLabel, h]
  · intro localC hne hfind
    simp [hydrateLabel, hne, hfind]
  · intro hne hfind
    refine ⟨?_, ?_, ?_⟩ <;> simp [hydrateLabel, hne, hfind]
  · intro c t ht hne
    simp [labelFromCourse, ht, hne]
  · intro c hc
    rcases hc with h | h <;> simp [labelFromCourse, h]

/-- Witness for C6 at concrete states: empty selection, a locally found
course, and a missing course under each fetch outcome. -/
theorem C6_hydrateLabel_spec_witness :
    hydrateLabel [] [] FetchCourseOutcome.failure = [] ∧
    hydrateLabel (str "i") [⟨str "i", str "Algo", some (str "F25")⟩]
      FetchCourseOutcome.failure =
      labelFromCourse (some ⟨str "i", str "Algo", some (str "F25")⟩) ∧
    hydrateLabel (str "i") [] FetchCourseOutcome.status403 = str "(not your course)" ∧
    hydrateLabel (str "i") [] FetchCourseOutcome.failure = str "(unknown course)" ∧
    labelFromCourse (some ⟨str "i", str "Algo", some (str "F25")⟩) =
      str "Algo" ++ str " — " ++ str "F25" := by
  have h1 := C6_hydrateLabel_spec [] [] FetchCourseOutcome.failure
  have h2 := C6_hydrateLabel_spec (str "i")
    [⟨str "i", str "Algo", some (str "F25")⟩] FetchCourseOutcome.failure
  have h3 := C6_hydrateLabel_spec (str "i") [] FetchCourseOutcome.status403
  exact ⟨h1.1 rfl,
    h2.2.1 ⟨str "i", str "Algo", some (str "F25")⟩ (by decide) (by decide),
    (h3.2.2.1 (by decide) rfl).1,
    (h3.2.2.1 (by decide) rfl).2.1,
    h2.2.2.2.1 ⟨str "i", str "Algo", some (str "F25")⟩ (str "F25") rfl (by decide)⟩

/-- Claim C7 (confirmed): `createCourse` with a blank name issues no
request (and is a silent no-op when an identity is set); with an empty
identity it signals the precondition alert and does not call the
backend; with name "Algo" and empty term it issues a request whose body
carries the empty term. -/
theorem C7_createCourse_spec (u name term : List Char) :
    (trim name = [] → issuesRequest (createCourse u name term) = false) ∧
    (u ≠ [] → trim name = [] → createCourse u name term = CreateOutcome.silent) ∧
    (u = [] → createCourse u name term = CreateOutcome.alertNoUser) ∧
    (u ≠ [] → createCourse u (str "Algo") (str "") =
      CreateOutcome.request (str "Algo") (str "")) := by
  refine ⟨?_, ?_, ?_, ?_⟩
  · intro hname
    by_cases hu : u = []
    · simp [createCourse, hu, issuesRequest]
    · simp [createCourse, hu, hname, issuesRequest]
  · intro hu hname
    simp [createCourse, hu, hname]
  · intro hu
    simp [createCourse, hu]
  · intro hu
    unfold createCourse
    rw [if_neg hu]
    decide

/-- Witness for C7: blank name with identity set, empty identity, and
the "Algo"/empty-term request. -/
theorem C7_createCourse_spec_witness :
    createCourse (str "u1") (str "  ") (str "Fall") = CreateOutcome.silent ∧
    createCourse (str "") (str "Algo") (str "Fall") = CreateOutcome.alertNoUser ∧
    createCourse (str "u1") (str "Algo") (str "") =
      CreateOutcome.request (str "Algo") (str "") ∧
    issuesRequest (createCourse (str "u1") (str "  ") (str "Fall")) = false :=
  ⟨(C7_createCourse_spec (str "u1") (str "  ") (str "Fall")).2.1 (by decide) (by decide),
   (C7_createCourse_spec (str "") (str "Algo") (str "Fall")).2.2.1 rfl,
   (C7_createCourse_spec (str "u1") (str "Algo") (str "")).2.2.2 (by decide),
   (C7_createCourse_spec (str "u1") (str "  ") (str "Fall")).1 (by decide)⟩

/-- Claim C8 (confirmed): `onUpload` checks identity, courseId and file
presence in that order, each with its own message and without a network
call; for kind pdf a file that neither declares MIME type
application/pdf nor has a lowercased name ending in ".pdf" is rejected
with the file-type message, a pdf-typed file over 100 MiB is rejected
with the size message; kind image issues the request with no validation
beyond file presence. -/
theorem C8_onUpload_spec (u c : List Char) (file : Option UFile) (f : UFile)
    (kind : UploadKind) :
    (u = [] → onUpload u c file kind = UploadOutcome.err (str "Set a user id first.")) ∧
    (u ≠ [] → c = [] →
      onUpload u c file kind = UploadOutcome.err (str "Pick or create a course first.")) ∧
    (u ≠ [] → c ≠ [] →
      onUpload u c none kind = UploadOutcome.err (str "Choose a file to upload.")) ∧
    (u ≠ [] → c ≠ [] → f.type ≠ str "application/pdf" →
      (str ".pdf").isSuffixOf (toLowerL f.name) = false →
      onUpload u c (some f) UploadKind.pdf =
        UploadOutcome.err (str "Please choose a .pdf file.")) ∧
    (u ≠ [] → c ≠ [] →
      ((f.type == str "application/pdf") || (str ".pdf").isSuffixOf (toLowerL f.name)) = true →
      f.size > 100 * 1024 * 1024 →
      onUpload u c (some f) UploadKind.pdf =
        UploadOutcome.err (str "PDF too large (>100MB).")) ∧
    (u ≠ [] → c ≠ [] →
      ((f.type == str "application/pdf") || (str ".pdf").isSuffixOf (toLowerL f.name)) = true →
      ¬ f.size > 100 * 1024 * 1024 →
      onUpload u c (some f) UploadKind.pdf = UploadOutcome.request (str "/upload/pdf")) ∧
    (u ≠ [] → c ≠ [] →
      onUpload u c (some f) UploadKind.image = UploadOutcome.request (str "/upload/image")) := by
  refine ⟨?_, ?_, ?_, ?_, ?_, ?_, ?_⟩
  · intro hu
    simp [onUpload, hu]
  · intro hu hc
    simp [onUpload, hu, hc]
  · intro hu hc
    simp [onUpload, hu, hc]
  · intro hu hc htype hsuf
    have hfalse : ((f.type == str "application/pdf") ||
        (str ".pdf").isSuffixOf (toLowerL f.name)) = false := by
      rw [beq_eq_false_iff_ne.mpr htype, hsuf]
      rfl
    simp [onUpload, hu, hc, hfalse]
  · intro hu hc hpdf hsize
    simp [onUpload, hu, hc, hpdf, hsize]
  · intro hu hc hpdf hsize
    simp [onUpload, hu, hc, hpdf, hsize]
  · intro hu hc
    simp [onUpload, hu, hc]

/-- Witness for C8: the spec's own example — a file named notes.txt of
MIME type text/plain under kind pdf is rejected with the file-type
message — plus each precondition and the image path. -/
theorem C8_onUpload_spec_witness :
    onUpload (str "u") (str "c")
      (some ⟨str "notes.txt", str "text/plain", 10⟩) UploadKind.pdf =
      UploadOutcome.err (str "Please choose a .pdf file.") ∧
    onUpload (str "") (str "c")
      (some ⟨str "notes.txt", str "text/plain", 10⟩) UploadKind.pdf =
      UploadOutcome.err (str "Set a user id first.") ∧
    onUpload (str "u") (str "")
      (some ⟨str "notes.txt", str "text/plain", 10⟩) UploadKind.pdf =
      UploadOutcome.err (str "Pick or create a course first.") ∧
    onUpload (str "u") (str "c") none UploadKind.pdf =
      UploadOutcome.err (str "Choose a file to upload.") ∧
    onUpload (str "u") (str "c")
      (some ⟨str "big.pdf", str "application/pdf", 104857601⟩) UploadKind.pdf =
      UploadOutcome.err (str "PDF too large (>100MB).") ∧
    onUpload (str "u") (str "c")
      (some ⟨str "notes.txt", str "text/plain", 10⟩) UploadKind.image =
      UploadOutcome.request (str "/upload/image") := by
  refine ⟨(C8_onUpload_spec (str "u") (str "c")
      (some ⟨str "notes.txt", str "text/plain", 10⟩)
      ⟨str "notes.txt", str "text/plain", 10⟩ UploadKind.pdf).2.2.2.1
      (by decide) (by decide) (by decide) (by decide),
    (C8_onUpload_spec (str "") (str "c")
      (some ⟨str "notes.txt", str "text/plain", 10⟩)
      ⟨str "notes.txt", str "text/plain", 10⟩ UploadKind.pdf).1 rfl,
    (C8_onUpload_spec (str "u") (str "")
      (some ⟨str "notes.txt", str "text/plain", 10⟩)
      ⟨str "notes.txt", str "text/plain", 10⟩ UploadKind.pdf).2.1 (by decide) rfl,
    (C8_onUpload_spec (str "u") (str "c") none
      ⟨str "notes.txt", str "text/plain", 10⟩ UploadKind.pdf).2.2.1
      (by decide) (by decide),
    (C8_onUpload_spec (str "u") (str "c")
      (some ⟨str "big.pdf", str "application/pdf", 104857601⟩)
      ⟨str "big.pdf", str "application/pdf", 104857601⟩ UploadKind.pdf).2.2.2.2.1
      (by decide) (by decide) (by decide) (by decide),
    (C8_onUpload_spec (str "u") (str "c")
      (some ⟨str "notes.txt", str "text/plain", 10⟩)
      ⟨str "notes.txt", str "text/plain", 10⟩ UploadKind.image).2.2.2.2.2.2
      (by decide) (by decide)⟩

/-- Claim C9 (confirmed): whenever `ask` passes its preconditions and a
request is issued, the state at issue time — for ANY previous state,
including one left by an earlier `ask` — has the answer, source list,
metadata and error all cleared (and loading set).  Hence no interleaving
of two successive asks can display stale data from the first beside the
second's outcome. -/
theorem C9_ask_clears_state {μ : Type} (q u c : List Char)
    (s sIssue : ChatState μ) (h : askIssueState q u c s = some sIssue) :
    sIssue.answer = [] ∧ sIssue.sources = [] ∧ sIssue.meta = none ∧
    sIssue.err = none ∧ sIssue.loading = true := by
  unfold askIssueState at h
  cases hp : askPre q u c with
  | silentReturn => rw [hp] at h; cases h
  | errReturn m => rw [hp] at h; cases h
  | proceed =>
    rw [hp] at h
    simp only [Option.some.injEq] at h
    subst h
    simp [askStart]

/-- Witness for C9: a concrete second `ask` starting from a state left
dirty by a first one (stale answer, a stale source, stale metadata and a
stale error). -/
theorem C9_ask_clears_state_witness :
    (askStart (⟨str "old answer", [⟨str "[1]", none, none, none, none, none⟩],
        some (), some (str "old error"), false⟩ : ChatState Unit)).answer = [] ∧
    (askStart (⟨str "old answer", [⟨str "[1]", none, none, none, none, none⟩],
        some (), some (str "old error"), false⟩ : ChatState Unit)).sources = [] ∧
    (askStart (⟨str "old answer", [⟨str "[1]", none, none, none, none, none⟩],
        some (), some (str "old error"), false⟩ : ChatState Unit)).meta = none ∧
    (askStart (⟨str "old answer", [⟨str "[1]", none, none, none, none, none⟩],
        some (), some (str "old error"), false⟩ : ChatState Unit)).err = none ∧
    (askStart (⟨str "old answer", [⟨str "[1]", none, none, none, none, none⟩],
        some (), some (str "old error"), false⟩ : ChatState Unit)).loading = true :=
  C9_ask_clears_state (str "why?") (str "uid") (str "cid") _ _ rfl

/-- Claim C10 (confirmed): `labelFromCourse` treats an empty-string term
like an absent one — for term empty, null or undefined (both embedded as
`none`) the label is the bare name; the "name — term" form appears
exactly for a non-empty term; a missing course yields the empty label. -/
theorem C10_labelFromCourse_term (c : Course) :
    (c.term = none → labelFromCourse (some c) = c.name) ∧
    (c.term = some [] → labelFromCourse (some c) = c.name) ∧
    (∀ t, c.term = some t → t ≠ [] →
      labelFromCourse (some c) = c.name ++ str " — " ++ t) ∧
    labelFromCourse none = [] := by
  refine ⟨?_, ?_, ?_, rfl⟩
  · intro h
    simp [labelFromCourse, h]
  · intro h
    simp [labelFromCourse, h]
  · intro t ht hne
    simp [labelFromCourse, ht, hne]

/-- Witness for C10 on concrete courses with absent, empty and non-empty
terms. -/
theorem C10_labelFromCourse_term_witness :
    labelFromCourse (some ⟨str "i", str "Algo", none⟩) = str "Algo" ∧
    labelFromCourse (some ⟨str "i", str "Algo", some []⟩) = str "Algo" ∧
    labelFromCourse (some ⟨str "i", str "Algo", some (str "F25")⟩) =
      str "Algo" ++ str " — " ++ str "F25" :=
  ⟨(C10_labelFromCourse_term ⟨str "i", str "Algo", none⟩).1 rfl,
   (C10_labelFromCourse_term ⟨str "i", str "Algo", some []⟩).2.1 rfl,
   (C10_labelFromCourse_term ⟨str "i", str "Algo", some (str "F25")⟩).2.2.1
     (str "F25") rfl (by decide)⟩
